import Mathlib

/-!
Verification of the interception and stream-aggregation core of the
dirigible-node SDK (src/patching.ts, src/stream-handler.ts, src/decorator.ts,
src/types.ts) against its natural-language specification.

JavaScript values are shallow-embedded as the inductive type `JsVal`.
A stream (an async iterable) is embedded as a first-class value
`vStream chunks err tee`: the sequence of chunks it delivers, an optional
error it raises after the delivered chunks, and whether it exposes the
OpenAI SDK `tee()` duplication method.  Plain `Error` instances are embedded
as `vErr msg` carrying their message.  JS `NaN` is the constructor `vNaN`
(it arises from arithmetic on `undefined`).
-/

set_option maxHeartbeats 1000000

namespace Dirigible

/-- Shallow embedding of the JavaScript values handled by the SDK. -/
inductive JsVal where
  | vUndef
  | vNull
  | vNaN
  | vBool (b : Bool)
  | vNum (n : Int)
  | vStr (s : String)
  | vErr (msg : String)
  | vObj (fields : List (String × JsVal))
  | vArr (elems : List JsVal)
  | vStream (chunks : List JsVal) (err : Option JsVal) (tee : Bool)

open JsVal

/-- JavaScript truthiness of an embedded value. -/
def truthy : JsVal → Bool
  | vUndef => false
  | vNull => false
  | vNaN => false
  | vBool b => b
  | vNum n => n != 0
  | vStr s => s != ""
  | vErr _ => true
  | vObj _ => true
  | vArr _ => true
  | vStream _ _ _ => true

/-- First-binding lookup in an embedded object field list. -/
def fieldLookup (k : String) : List (String × JsVal) → Option JsVal
  | [] => none
  | (k', v) :: rest => if k' = k then some v else fieldLookup k rest

/-- Property read `v.k`: `undefined` when the key is absent or the value is
not an object.  (Used where the source either guards the access with `?.`
or is known to act on an object.) -/
def getF : JsVal → String → JsVal
  | vObj fields, k => (fieldLookup k fields).getD vUndef
  | _, _ => vUndef

/-- Index read `v[i]` on an embedded array. -/
def getIdx : JsVal → Nat → JsVal
  | vArr l, i => l.getD i vUndef
  | _, _ => vUndef

/-- JavaScript `a || b`. -/
def jsOr (a b : JsVal) : JsVal := if truthy a then a else b

/-- JavaScript `Array.isArray`. -/
def isArray : JsVal → Bool
  | vArr _ => true
  | _ => false

/-- Duck-typing check `typeof obj[Symbol.asyncIterator] === 'function'`
from `isAsyncIterable` in patching.ts. -/
def isAsyncIterable : JsVal → Bool
  | vStream _ _ _ => true
  | _ => false

/-- Duck-typing check `typeof obj.tee === 'function'` from `hasTeeMethod`
in patching.ts. -/
def hasTeeMethod : JsVal → Bool
  | vStream _ _ t => t
  | _ => false

/-- Embedded value is a non-null object (`typeof v === 'object' && v`). -/
def isObjLike : JsVal → Bool
  | vObj _ => true
  | vArr _ => true
  | vErr _ => true
  | vStream _ _ _ => true
  | _ => false

/-- JavaScript `String(v)` on the embedded values: plain objects print
as `[object Object]`, an `Error` prints as `Error: <message>`.  The
array case is a fixed placeholder: JS would comma-join the element
strings, but no value stringified at the call sites (error messages,
model names, content deltas) is an array, so the recursive join — which
would not kernel-reduce — is not modelled. -/
def jsToString : JsVal → String
  | vUndef => "undefined"
  | vNull => "null"
  | vNaN => "NaN"
  | vBool b => if b then "true" else "false"
  | vNum n => toString n
  | vStr s => s
  | vErr m => "Error: " ++ m
  | vObj _ => "[object Object]"
  | vArr _ => "[array]"
  | vStream _ _ _ => "[object Object]"

/-- JavaScript `+` restricted to the operand shapes that occur in token
arithmetic: two numbers add; `null` and booleans coerce to numbers; any
operand that is `undefined` or `NaN` yields `NaN`; two strings
concatenate.  (Object operands, which coerce through `toString` in JS, do
not occur at the one call site, `extractTokens` in patching.ts.) -/
def jsAdd : JsVal → JsVal → JsVal
  | vNum a, vNum b => vNum (a + b)
  | vNum a, vNull => vNum a
  | vNull, vNum b => vNum b
  | vNull, vNull => vNum 0
  | vNum a, vBool b => vNum (a + (if b then 1 else 0))
  | vBool a, vNum b => vNum ((if a then 1 else 0) + b)
  | vStr a, vStr b => vStr (a ++ b)
  | _, _ => vNaN

/-- ASCII lower-casing of one character (the model names and constructor
names classified by the SDK are ASCII). -/
def charLower (c : Char) : Char :=
  if 'A' ≤ c && c ≤ 'Z' then Char.ofNat (c.toNat + 32) else c

/-- `String.prototype.toLowerCase` on the ASCII strings the classifiers
handle. -/
def lowerStr (s : String) : String := String.mk (s.data.map charLower)

/-- Character-list test of whether the second list is an initial segment
of the first. -/
def startsW : List Char → List Char → Bool
  | _, [] => true
  | [], _ :: _ => false
  | c :: cs, p :: ps => c == p && startsW cs ps

/-- Character-list substring test. -/
def hasSub : List Char → List Char → Bool
  | s, pat =>
    if startsW s pat then true
    else match s with
      | [] => false
      | _ :: cs => hasSub cs pat

/-- `String.prototype.includes` as used by the provider classifiers. -/
def strIncludes (s pat : String) : Bool := hasSub s.data pat.data

/-- `String.prototype.startsWith` as used by the provider classifiers. -/
def strStarts (s pat : String) : Bool := startsW s.data pat.data

/-- Strict equality `v === 's'` against a string literal. -/
def isStrEq (v : JsVal) (s : String) : Bool :=
  match v with
  | vStr t => t == s
  | _ => false

/-- Strict equality `v === true`. -/
def isTrueVal : JsVal → Bool
  | vBool true => true
  | _ => false

/-- Strict equality `v === undefined`. -/
def isUndef : JsVal → Bool
  | vUndef => true
  | _ => false

/-- The LLM provider tags of the SDK.  types.ts declares `OPENAI`,
`ANTHROPIC`, `GOOGLE` and `CUSTOM`; stream-handler.ts and decorator.ts
additionally reference `LLMProvider.GEMINI`, which is modelled as its own
tag (distinct from `GOOGLE`, matching the fact that `LLMProvider.GOOGLE`
never selects the `GEMINI` branches of the stream handler). -/
inductive LLMProvider where
  | openai
  | anthropic
  | google
  | gemini
  | custom
  deriving DecidableEq

/-- String value of a provider tag, as interpolated by the template
literal in `processStreamInBackground`. -/
def providerStr : LLMProvider → String
  | .openai => "openai"
  | .anthropic => "anthropic"
  | .google => "google"
  | .gemini => "gemini"
  | .custom => "custom"

/-- Canonical token triple `{input?, output?, total?}`.  Each field is an
embedded value because the source stores raw (possibly `undefined` or
`NaN`) values in it; the empty result `{}` is the triple of
`undefined`s, observationally equal under property reads. -/
structure Tokens where
  input : JsVal
  output : JsVal
  total : JsVal

/-- Empty token record `{}`. -/
def Tokens.empty : Tokens := ⟨vUndef, vUndef, vUndef⟩

/-- Safe error-message extraction from `getErrorMessage` in patching.ts:
`error instanceof Error` yields its `.message`, anything else is passed
through `String(...)`. -/
def getErrorMessage : JsVal → String
  | vErr m => m
  | v => jsToString v

/-- Length of an embedded array (`.length`); only consulted after an
`Array.isArray` guard in the source. -/
def arrLen : JsVal → Nat
  | vArr l => l.length
  | _ => 0

/-- Write-or-append of one key into an object field list, following the
assignment semantics of `Object.assign`: an existing binding is
overwritten in place, a new key is appended. -/
def setKey : List (String × JsVal) → String → JsVal → List (String × JsVal)
  | [], k, v => [(k, v)]
  | (a, b) :: t, k, v => if a = k then (k, v) :: t else (a, b) :: setKey t k v

/-- Own-property test `Object.prototype.hasOwnProperty`-style: whether an
embedded object carries the key at all (a key bound to `undefined` is
still carried, and `Object.assign` copies it). -/
def hasKey (v : JsVal) (k : String) : Bool :=
  match v with
  | vObj fs => decide (k ∈ fs.map Prod.fst)
  | _ => false

/-- Fold of `setKey` over the source fields, i.e. the field-level effect
of `Object.assign(target, src)`. -/
def assignFields (base src : List (String × JsVal)) : List (String × JsVal) :=
  src.foldl (fun acc p => setKey acc p.1 p.2) base

/-- `Object.assign(target, src)` for the object operands that occur in the
stream handler (`usage` objects).  A non-object source contributes no
fields, matching `Object.assign` on the nullish sources that can reach
the call sites; exotic sources such as strings, whose indexed characters
would be copied, do not occur there. -/
def objAssign (target src : JsVal) : JsVal :=
  match target, src with
  | vObj bs, vObj ss => vObj (assignFields bs ss)
  | t, _ => t

/-- Model-name extraction `extractModel(request, response, provider)` from
patching.ts (lines 485-542), translated branch for branch; the source's
early returns become an if-chain. -/
def extractModel (request response : JsVal) (provider : LLMProvider) : String :=
  if isObjLike request && truthy (getF request "model") then
    jsToString (getF request "model")
  else if isObjLike request && truthy (getF (getF request "params") "model") then
    jsToString (getF (getF request "params") "model")
  else if isObjLike request && isArray (getF request "messages")
      && truthy (getF request "model") then
    jsToString (getF request "model")
  else if isObjLike response && truthy (getF response "model") then
    jsToString (getF response "model")
  else if isObjLike response && isStrEq (getF response "type") "message"
      && truthy (getF response "model") then
    jsToString (getF response "model")
  else if isObjLike response && truthy (getF response "candidates")
      && isArray (getF response "candidates") && arrLen (getF response "candidates") > 0
      && truthy (getF (getF (getIdx (getF response "candidates") 0) "modelConfig") "model") then
    jsToString (getF (getF (getIdx (getF response "candidates") 0) "modelConfig") "model")
  else if isObjLike response && truthy (getF (getF response "modelConfig") "model") then
    jsToString (getF (getF response "modelConfig") "model")
  else
    match provider with
    | .openai => "openai-model"
    | .anthropic => "anthropic-model"
    | .google => "google-model"
    | _ => "unknown"

/-! ## StreamHandler (stream-handler.ts)

The mutable fields of the `StreamHandler` class become the record
`StreamState`; each private method becomes a state-transforming
function. -/

/-- Mutable accumulator state of a `StreamHandler` instance:
`content = ''`, `usageData = null`, `finishReason = null`,
`inputTokensFromStart = undefined` initially. -/
structure StreamState where
  content : String
  usageData : JsVal
  finishReason : JsVal
  inputTokensFromStart : JsVal

/-- Initial accumulator state of a fresh `StreamHandler`. -/
def initStreamState : StreamState := ⟨"", vNull, vNull, vUndef⟩

/-- Content extraction for the `OPENAI` case of
`StreamHandler.extractContent` (two independent `if`s). -/
def openaiContent (st : StreamState) (chunk : JsVal) : StreamState :=
  let d1 := getF (getF (getIdx (getF chunk "choices") 0) "delta") "content"
  let st := if truthy d1 then { st with content := st.content ++ jsToString d1 } else st
  let d2 := getF (getF chunk "delta") "text"
  if isStrEq (getF chunk "type") "response.output_text.delta" && truthy d2 then
    { st with content := st.content ++ jsToString d2 }
  else st

/-- Content extraction for the `ANTHROPIC` case of
`StreamHandler.extractContent` (an `else if` chain). -/
def anthropicContent (st : StreamState) (chunk : JsVal) : StreamState :=
  let ty := getF chunk "type"
  if isStrEq ty "content_block_delta"
      && isStrEq (getF (getF chunk "delta") "type") "text_delta"
      && truthy (getF (getF chunk "delta") "text") then
    { st with content := st.content ++ jsToString (getF (getF chunk "delta") "text") }
  else if isStrEq ty "content_block_start" && truthy (getF (getF chunk "content_block") "text") then
    { st with content := st.content ++ jsToString (getF (getF chunk "content_block") "text") }
  else if isStrEq ty "content_block_stop" && truthy (getF (getF chunk "content_block") "text") then
    { st with content := st.content ++ jsToString (getF (getF chunk "content_block") "text") }
  else st

/-- Content extraction for the `GEMINI` case of
`StreamHandler.extractContent`: every truthy `part.text` of
`candidates[0].content.parts` is appended.  (A truthy non-array `parts`
would make the source's `for…of` throw; chunks are taken well-formed.) -/
def geminiContent (st : StreamState) (chunk : JsVal) : StreamState :=
  let parts := getF (getF (getIdx (getF chunk "candidates") 0) "content") "parts"
  if truthy parts then
    match parts with
    | vArr l =>
      let extra := l.foldl
        (fun acc part =>
          acc ++ (if truthy (getF part "text") then jsToString (getF part "text") else "")) ""
      { st with content := st.content ++ extra }
    | _ => st
  else st

/-- Content extraction for the `default` case of
`StreamHandler.extractContent` (reached for the `GOOGLE` and `CUSTOM`
tags): simple `chunk.content` / `chunk.text` accumulation. -/
def defaultContent (st : StreamState) (chunk : JsVal) : StreamState :=
  let st := if truthy (getF chunk "content") then
      { st with content := st.content ++ jsToString (getF chunk "content") } else st
  if truthy (getF chunk "text") then
    { st with content := st.content ++ jsToString (getF chunk "text") } else st

/-- `StreamHandler.extractContent` (lines 54-101). -/
def extractContent (provider : LLMProvider) (st : StreamState) (chunk : JsVal) : StreamState :=
  match provider with
  | .openai => openaiContent st chunk
  | .anthropic => anthropicContent st chunk
  | .gemini => geminiContent st chunk
  | _ => defaultContent st chunk

/-- Metadata extraction for the `OPENAI` case of
`StreamHandler.extractMetadata`: a usage chunk with an empty `choices`
array replaces `usageData`; otherwise usage is captured only while
`usageData` is still unset; `finish_reason` is last-writer-wins. -/
def openaiMeta (st : StreamState) (chunk : JsVal) : StreamState :=
  let usage := getF chunk "usage"
  let st := if isArray (getF chunk "choices") && arrLen (getF chunk "choices") == 0 && truthy usage then
      { st with usageData := usage } else st
  let st := if truthy usage && !(truthy st.usageData) then { st with usageData := usage } else st
  let fr := getF (getIdx (getF chunk "choices") 0) "finish_reason"
  if truthy fr then { st with finishReason := fr } else st

/-- Metadata extraction for the `ANTHROPIC` case of
`StreamHandler.extractMetadata`: `input_tokens` is (re)assigned from any
`message_start` event; `message_stop` fixes the finish reason to
`'stop'`; usage objects are merged into `usageData` with
`Object.assign`. -/
def anthropicMeta (st : StreamState) (chunk : JsVal) : StreamState :=
  let ty := getF chunk "type"
  let msgInput := getF (getF (getF chunk "message") "usage") "input_tokens"
  let st := if isStrEq ty "message_start" && !(isUndef msgInput) then
      { st with inputTokensFromStart := msgInput } else st
  let st := if isStrEq ty "message_stop" then { st with finishReason := vStr "stop" } else st
  let usage := getF chunk "usage"
  let st := if isStrEq ty "message_delta" && truthy usage then
      { st with usageData := objAssign (jsOr st.usageData (vObj [])) usage } else st
  let st := if truthy usage && isObjLike usage then
      { st with usageData := objAssign (jsOr st.usageData (vObj [])) usage } else st
  let msgUsage := getF (getF chunk "message") "usage"
  if truthy msgUsage && isObjLike msgUsage then
    { st with usageData := objAssign (jsOr st.usageData (vObj [])) msgUsage }
  else st

/-- Metadata extraction for the `GEMINI` case of
`StreamHandler.extractMetadata`: `usageMetadata` replaces `usageData`
wholesale; `candidates[0].finishReason` is last-writer-wins. -/
def geminiMeta (st : StreamState) (chunk : JsVal) : StreamState :=
  let st := if truthy (getF chunk "usageMetadata") then
      { st with usageData := getF chunk "usageMetadata" } else st
  let fr := getF (getIdx (getF chunk "candidates") 0) "finishReason"
  if truthy fr then { st with finishReason := fr } else st

/-- `StreamHandler.extractMetadata` (lines 107-185); the switch has no
`default` case, so the `GOOGLE` and `CUSTOM` tags leave the state
untouched. -/
def extractMetadata (provider : LLMProvider) (st : StreamState) (chunk : JsVal) : StreamState :=
  match provider with
  | .openai => openaiMeta st chunk
  | .anthropic => anthropicMeta st chunk
  | .gemini => geminiMeta st chunk
  | _ => st

/-- `StreamHandler.processChunk`: content extraction first, then
metadata extraction. -/
def processChunk (provider : LLMProvider) (st : StreamState) (chunk : JsVal) : StreamState :=
  extractMetadata provider (extractContent provider st chunk) chunk

/-- State after feeding a whole chunk sequence to one `StreamHandler`. -/
def processChunks (provider : LLMProvider) (chunks : List JsVal) : StreamState :=
  chunks.foldl (processChunk provider) initStreamState

/-- `StreamHandler.createFinalResponse` (lines 191-247), synthesizing a
provider-shaped response from the accumulated state; `now` stands for the
`Date.now()` timestamps interpolated into the synthetic ids. -/
def createFinalResponse (provider : LLMProvider) (request : JsVal) (now : Int)
    (st : StreamState) : JsVal :=
  match provider with
  | .openai =>
    vObj [("id", vStr ("chatcmpl-stream-" ++ toString now)),
          ("model", jsOr (getF request "model") (vStr "unknown")),
          ("object", vStr "chat.completion.stream"),
          ("choices", vArr [vObj
            [("message", vObj [("content", vStr st.content), ("role", vStr "assistant")]),
             ("finish_reason", jsOr st.finishReason (vStr "stop"))]]),
          ("usage", st.usageData)]
  | .anthropic =>
    vObj [("id", vStr ("msg_" ++ toString now)),
          ("type", vStr "message"),
          ("role", vStr "assistant"),
          ("content", vArr [vObj [("type", vStr "text"), ("text", vStr st.content)]]),
          ("model", jsOr (getF request "model") (vStr "anthropic-model")),
          ("usage", st.usageData)]
  | .gemini =>
    vObj [("candidates", vArr [vObj
            [("content", vObj [("parts", vArr [vObj [("text", vStr st.content)]]),
                               ("role", vStr "model")]),
             ("finishReason", st.finishReason)]]),
          ("usageMetadata", st.usageData),
          ("modelConfig", vObj [("model", jsOr (getF request "model") (vStr "gemini-model"))])]
  | _ =>
    vObj [("content", vStr st.content),
          ("model", jsOr (getF request "model") (vStr "unknown")),
          ("usage", st.usageData)]

/-- `StreamHandler.extractTokens` (lines 253-295).  The `OPENAI` and
`GEMINI` field reads on `usageData` are translated with the total `getF`;
in the source they can only be reached with a non-null `usageData`,
because `inputTokensFromStart` is assigned solely in the `ANTHROPIC`
branch of `extractMetadata`. -/
def extractTokensStream (provider : LLMProvider) (st : StreamState) : Tokens :=
  if !(truthy st.usageData) && !(truthy st.inputTokensFromStart) then Tokens.empty
  else
    match provider with
    | .openai =>
      ⟨getF st.usageData "prompt_tokens", getF st.usageData "completion_tokens",
       getF st.usageData "total_tokens"⟩
    | .anthropic =>
      let inputTokens := if !(isUndef st.inputTokensFromStart) then st.inputTokensFromStart
        else getF st.usageData "input_tokens"
      let outputTokens := getF st.usageData "output_tokens"
      let totalTokens := if !(isUndef inputTokens) && !(isUndef outputTokens) then
          jsAdd inputTokens outputTokens else vUndef
      ⟨inputTokens, outputTokens, totalTokens⟩
    | .gemini =>
      ⟨getF st.usageData "promptTokenCount", getF st.usageData "candidatesTokenCount",
       getF st.usageData "totalTokenCount"⟩
    | _ => Tokens.empty

/-! ## Interaction records and emission -/

/-- The `LLMInteraction` record literals built by patching.ts and
stream-handler.ts.  `errorMessage` and `tokens` are `Option`s because
some literals omit them; `duration` is omitted by the stream records
built on the background error path and by the basic streaming records. -/
structure LLMInteraction where
  id : JsVal
  provider : LLMProvider
  timestamp : String
  duration : Option Int
  model : String
  request : JsVal
  response : JsVal
  status : String
  errorMessage : Option String
  tokens : Option Tokens
  metadata : List (String × JsVal)

/-- Ambient quantities an intercepted call reads from its environment:
the generated interaction id, the ISO timestamp string, and the
`Date.now()` clock at call start and at record-construction time. -/
structure Env where
  interactionId : String
  nowIso : String
  startMs : Int
  nowMs : Int

/-- `StreamHandler.createInteractionLog` (lines 302-323): the final
record of a fully processed stream, with the synthetic response, the
extracted tokens, and the `streamingRequest` / `streamFullyProcessed` /
`contentLength` / `hasUsageData` metadata keys laid over the snapshot
taken at construction. -/
def createInteractionLog (provider : LLMProvider) (request : JsVal)
    (meta : List (String × JsVal)) (env : Env) (st : StreamState) : LLMInteraction :=
  let response := createFinalResponse provider request env.nowMs st
  { id := (fieldLookup "interactionId" meta).getD vUndef
    provider := provider
    timestamp := env.nowIso
    duration := some (env.nowMs - env.startMs)
    model := extractModel request response provider
    request := request
    response := response
    status := "success"
    errorMessage := none
    tokens := some (extractTokensStream provider st)
    metadata := assignFields meta
      [("streamingRequest", vBool true),
       ("streamFullyProcessed", vBool true),
       ("contentLength", vNum st.content.length),
       ("hasUsageData", vBool (truthy st.usageData || truthy st.inputTokensFromStart))] }

/-- `processStreamInBackground` (lines 392-446) as a function of the
stream's data: when the stream delivers its chunks and ends, the fully
accumulated interaction log is emitted; when it raises, the handler
accumulated so far is discarded and a minimal record is emitted instead,
carrying `streamProcessingError` metadata and the error message inside
the `response`, with `status` still `'success'` and no tokens. -/
def processStreamInBackground (provider : LLMProvider) (request : JsVal)
    (meta : List (String × JsVal)) (env : Env)
    (chunks : List JsVal) (err : Option JsVal) : LLMInteraction :=
  match err with
  | none =>
    createInteractionLog provider request meta env (processChunks provider chunks)
  | some e =>
    { id := (fieldLookup "interactionId" meta).getD vUndef
      provider := provider
      timestamp := env.nowIso
      duration := none
      model := extractModel request vNull provider
      request := request
      response := vObj
        [("model", jsOr (getF request "model") (vStr (providerStr provider ++ "-model"))),
         ("streaming", vBool true),
         ("processingError", vStr (getErrorMessage e))]
      status := "success"
      errorMessage := none
      tokens := none
      metadata := assignFields meta
        [("streamingRequest", vBool true), ("streamProcessingError", vBool true)] }

/-- One started-and-terminated run of the async generator returned by
`createStreamWrapper` (lines 350-381).  The caller pulls up to `takeN`
chunks (fewer when the stream ends or raises first); each pulled chunk is
fed to the run's own `StreamHandler` before being yielded; whether the
run ends by exhaustion, by a stream error, or by the caller breaking
early, the `finally` block builds exactly one interaction log from the
chunks processed so far. -/
def runWrappedIteration (provider : LLMProvider) (request : JsVal)
    (meta : List (String × JsVal)) (env : Env)
    (chunks : List JsVal) (takeN : Nat) : LLMInteraction :=
  createInteractionLog provider request meta env
    (chunks.take takeN |>.foldl (processChunk provider) initStreamState)

/-- Records emitted by the object returned from `createStreamWrapper`
under a caller behaviour: each list entry is one time the caller obtained
the wrapped object's async iterator, `none` when iteration was never
started (the generator body, including its `finally`, never runs) and
`some n` when the caller started iterating and terminated after at most
`n` chunks. -/
def wrappedStreamEmissions (provider : LLMProvider) (request : JsVal)
    (meta : List (String × JsVal)) (env : Env) (chunks : List JsVal)
    (runs : List (Option Nat)) : List LLMInteraction :=
  runs.filterMap (Option.map (runWrappedIteration provider request meta env chunks))

/-! ## ClientInterceptor (patching.ts) -/

/-- Token extraction `extractTokens(response, provider)` from patching.ts
(lines 547-586).  The `ANTHROPIC` branch adds `input_tokens` and
`output_tokens` unconditionally, so a missing operand flows through
JavaScript `+` as `undefined` and yields `NaN`. -/
def extractTokensPatching (response : JsVal) (provider : LLMProvider) : Tokens :=
  if !(isObjLike response) then Tokens.empty
  else
    match provider with
    | .openai =>
      let u := getF response "usage"
      if truthy u && isObjLike u then
        ⟨getF u "prompt_tokens", getF u "completion_tokens", getF u "total_tokens"⟩
      else Tokens.empty
    | .anthropic =>
      let u := getF response "usage"
      if truthy u && isObjLike u then
        ⟨getF u "input_tokens", getF u "output_tokens",
         jsAdd (getF u "input_tokens") (getF u "output_tokens")⟩
      else Tokens.empty
    | .google =>
      let u := getF response "usageMetadata"
      if truthy u && isObjLike u then
        ⟨getF u "promptTokenCount", getF u "candidatesTokenCount", getF u "totalTokenCount"⟩
      else Tokens.empty
    | _ => Tokens.empty

/-- Token extraction `extractTokens(provider, response)` from the
decorator module (decorator.ts lines 60-117): every field is
type-checked with `typeof === 'number'` and the Anthropic total is only
computed when both operands are numbers. -/
def extractTokensDecorator (provider : LLMProvider) (response : JsVal) : Tokens :=
  let numOrUndef := fun (v : JsVal) => match v with | vNum n => vNum n | _ => vUndef
  if !(isObjLike response) then Tokens.empty
  else
    match provider with
    | .openai =>
      let u := getF response "usage"
      if truthy u && isObjLike u then
        ⟨numOrUndef (getF u "prompt_tokens"), numOrUndef (getF u "completion_tokens"),
         numOrUndef (getF u "total_tokens")⟩
      else Tokens.empty
    | .anthropic =>
      let u := getF response "usage"
      if truthy u && isObjLike u then
        let i := numOrUndef (getF u "input_tokens")
        let o := numOrUndef (getF u "output_tokens")
        let t := match i, o with
          | vNum a, vNum b => vNum (a + b)
          | _, _ => vUndef
        ⟨i, o, t⟩
      else Tokens.empty
    | .gemini =>
      let u := getF response "usage"
      if truthy u && isObjLike u then
        ⟨numOrUndef (getF u "promptTokenCount"), numOrUndef (getF u "candidatesTokenCount"),
         numOrUndef (getF u "totalTokenCount")⟩
      else
        let cands := getF response "candidates"
        if truthy cands && isArray cands && arrLen cands > 0
            && truthy (getF (getIdx cands 0) "tokenCount") then
          ⟨vUndef, getF (getIdx cands 0) "tokenCount", vUndef⟩
        else Tokens.empty
    | _ => Tokens.empty

/-- The evaluation of `x?.toLowerCase() || ''` on an embedded value
`x`: nullish operands shortcut to the empty string, string operands are
lowercased, and any other (truthy or falsy non-string) operand raises
`TypeError: toLowerCase is not a function`, modelled as `Except.error`. -/
def optChainToLower (v : JsVal) : Except Unit String :=
  match v with
  | vUndef => .ok ""
  | vNull => .ok ""
  | vStr s => .ok (lowerStr s)
  | _ => .error ()

/-- Client-based provider detection `detectProvider(client)` from
patching.ts (lines 128-145).  A client whose constructor name matters is
modelled with an explicit `constructor.name` field. -/
def detectProviderClient (client : JsVal) : Except Unit LLMProvider := do
  if !(truthy client) then return .custom
  let constructorName ← optChainToLower (getF (getF client "constructor") "name")
  if strIncludes constructorName "openai" then return .openai
  if strIncludes constructorName "anthropic" then return .anthropic
  if strIncludes constructorName "genai" || strIncludes constructorName "google" then
    return .google
  if truthy (getF (getF (getF client "chat") "completions") "create") then return .openai
  if truthy (getF (getF client "messages") "create") then return .anthropic
  if truthy (getF (getF client "models") "generateContent") then return .google
  return .custom

/-- The model-name pattern rules of `detectProvider` in the decorator
module (decorator.ts lines 22-42): GPT-style prefixes and legacy OpenAI
family names, then a `claude` substring, then a `gemini` substring. -/
def modelNameTag (modelName : String) : Option String :=
  if strStarts modelName "gpt-" || strIncludes modelName "davinci"
      || strIncludes modelName "curie" || strIncludes modelName "babbage"
      || strIncludes modelName "ada" || strStarts modelName "o3-"
      || strStarts modelName "text-" || strIncludes modelName "gpt4" then
    some "openai"
  else if strIncludes modelName "claude" then some "anthropic"
  else if strIncludes modelName "gemini" then some "gemini"
  else none

/-- The constructor-name rules of `detectProvider` in the decorator
module (decorator.ts lines 46-51). -/
def ctorNameTagD (n : String) : Option String :=
  if strIncludes n "openai" then some "openai"
  else if strIncludes n "anthropic" then some "anthropic"
  else if strIncludes n "genai" || strIncludes n "gemini" then some "gemini"
  else none

/-- Request/context-based provider detection `detectProvider(params,
context)` from the decorator module (decorator.ts lines 12-55).  The
result is the raw value the source returns: the explicit override is
passed through verbatim, and the enum members are their string values;
the source's early returns inside each rule block become the two `Option`
dispatches. -/
def detectProviderDecorator (params context : JsVal) : Except Unit JsVal := do
  if truthy (getF (getF context "metadata") "provider") then
    return getF (getF context "metadata") "provider"
  let mTag ←
    if truthy params && isObjLike params then do
      let modelName ← optChainToLower (getF params "model")
      pure (modelNameTag modelName)
    else pure none
  match mTag with
  | some t => return vStr t
  | none =>
    let cTag ←
      if truthy context && isObjLike context then do
        let constructorName ← optChainToLower (getF (getF context "constructor") "name")
        pure (ctorNameTagD constructorName)
      else pure none
    match cTag with
    | some t => return vStr t
    | none => return vStr "custom"

/-- Behaviour of one underlying method invocation, as the wrapper
observes it: a synchronous return, a synchronous throw, a promise that
resolves (possibly to a stream value), or a promise that rejects. -/
inductive CallOutcome where
  | syncVal (v : JsVal)
  | syncThrow (e : JsVal)
  | asyncVal (v : JsVal)
  | asyncThrow (e : JsVal)

/-- What the caller of a wrapped method observes. -/
inductive CallerResult where
  | retVal (v : JsVal)
  | thrown (e : JsVal)
  | resolved (v : JsVal)
  | rejected (e : JsVal)
  | resolvedTeeUser (s : JsVal)
  | resolvedWrapped (s : JsVal)

/-- Result of one intercepted call: the caller-visible outcome together
with the interaction records the interception emits for this call.  The
tee path's background record is deterministic in the stream's data and is
therefore included; the records of a `createStreamWrapper` result depend
on how the caller later iterates and are accounted by
`wrappedStreamEmissions` instead. -/
structure WrapResult where
  caller : CallerResult
  emitted : List LLMInteraction

/-- The per-call body of the method wrapper installed by `wrapLLMClient`
(patching.ts lines 253-467), translated branch for branch over the
observed outcome.  `meta` is the snapshot `{...getGlobalMetadata(),
method: path}` merged with the workflow metadata. -/
def wrapMethodCall (provider : LLMProvider) (env : Env) (args : List JsVal)
    (meta : List (String × JsVal)) (outcome : CallOutcome) : WrapResult :=
  let reqData := jsOr (args.headD vUndef) (vObj [])
  let dur := some (env.nowMs - env.startMs)
  match outcome with
  | .syncVal v =>
    ⟨.retVal v,
     [{ id := vStr env.interactionId, provider := provider, timestamp := env.nowIso
        duration := dur, model := extractModel reqData v provider
        request := reqData, response := v, status := "success", errorMessage := none
        tokens := some (extractTokensPatching v provider), metadata := meta }]⟩
  | .syncThrow e =>
    ⟨.thrown e,
     [{ id := vStr env.interactionId, provider := provider, timestamp := env.nowIso
        duration := dur, model := extractModel reqData vNull provider
        request := reqData, response := vNull, status := "error"
        errorMessage := some (getErrorMessage e), tokens := none, metadata := meta }]⟩
  | .asyncThrow e =>
    ⟨.rejected e,
     [{ id := vStr env.interactionId, provider := provider, timestamp := env.nowIso
        duration := dur, model := extractModel reqData vNull provider
        request := reqData, response := vNull, status := "error"
        errorMessage := some (getErrorMessage e), tokens := none, metadata := meta }]⟩
  | .asyncVal v =>
    if provider = .openai && isTrueVal (getF reqData "stream") then
      match v with
      | vStream chunks err true =>
        ⟨.resolvedTeeUser (vStream chunks err true),
         [processStreamInBackground provider reqData
            (assignFields meta [("interactionId", vStr env.interactionId)]) env chunks err]⟩
      | _ =>
        ⟨.resolved v,
         [{ id := vStr env.interactionId, provider := provider, timestamp := env.nowIso
            duration := none, model := extractModel reqData vNull provider
            request := reqData
            response := vObj [("model", jsOr (getF reqData "model") (vStr "openai-model")),
                              ("streaming", vBool true), ("requestTime", vStr env.nowIso)]
            status := "success", errorMessage := none, tokens := none
            metadata := assignFields meta [("streamingRequest", vBool true)] }]⟩
    else if isAsyncIterable v then
      ⟨.resolvedWrapped v, []⟩
    else
      ⟨.resolved v,
       [{ id := vStr env.interactionId, provider := provider, timestamp := env.nowIso
          duration := dur, model := extractModel reqData v provider
          request := reqData, response := v, status := "success", errorMessage := none
          tokens := some (extractTokensPatching v provider), metadata := meta }]⟩

/-- The outcome the second (outer) wrapper layer observes when its
underlying method is itself a wrapped method that produced the given
caller result.  The object returned by `createStreamWrapper` is an async
iterable over the same chunks without a `tee` method. -/
def resultToOutcome : CallerResult → CallOutcome
  | .retVal v => .syncVal v
  | .thrown e => .syncThrow e
  | .resolved v => .asyncVal v
  | .rejected e => .asyncThrow e
  | .resolvedTeeUser s => .asyncVal s
  | .resolvedWrapped (vStream cs err _) => .asyncVal (vStream cs err false)
  | .resolvedWrapped v => .asyncVal v

/-- An intercepted call through a client that was wrapped twice
(`observeAIClient` applied to an already-wrapped client): the inner layer
runs and logs, the outer layer observes the inner layer's result and logs
again. -/
def doubleWrapCall (provider : LLMProvider) (env1 env2 : Env) (args : List JsVal)
    (meta : List (String × JsVal)) (outcome : CallOutcome) : WrapResult :=
  let inner := wrapMethodCall provider env1 args meta outcome
  let outer := wrapMethodCall provider env2 args meta (resultToOutcome inner.caller)
  ⟨outer.caller, inner.emitted ++ outer.emitted⟩

/-- State of the module-level `patchedLibraries` registry in patching.ts
together with a count of how many times a patch function actually ran. -/
structure PatchState where
  patched : List String
  applications : Nat

/-- `patchIfExists(packageName, patchFn)` (patching.ts lines 16-28):
a package already in the registry is skipped; otherwise the package is
required and patched, and only on success recorded in the registry
(`requireOk` stands for `require` and `patchFn` completing without
throwing; a failure is swallowed and nothing is recorded). -/
def patchIfExists (packageName : String) (requireOk : Bool) (st : PatchState) : PatchState :=
  if st.patched.contains packageName then st
  else if requireOk then
    { patched := packageName :: st.patched, applications := st.applications + 1 }
  else st

/-! ## Helper lemmas about the embedding -/

@[simp] lemma fieldLookup_nil (k : String) : fieldLookup k [] = none := rfl

@[simp] lemma fieldLookup_cons (k a : String) (b : JsVal) (t : List (String × JsVal)) :
    fieldLookup k ((a, b) :: t) = if a = k then some b else fieldLookup k t := rfl

/-- Looking up the key just written by `setKey` yields the written
value. -/
lemma fieldLookup_setKey_self (fs : List (String × JsVal)) (k : String) (v : JsVal) :
    fieldLookup k (setKey fs k v) = some v := by
  induction fs with
  | nil => simp [setKey]
  | cons p t ih =>
    obtain ⟨a, b⟩ := p
    by_cases ha : a = k
    · simp [setKey, ha]
    · simp [setKey, ha, ih]

/-- `setKey` leaves the binding of every other key untouched. -/
lemma fieldLookup_setKey_ne (fs : List (String × JsVal)) (k key : String) (v : JsVal)
    (h : k ≠ key) :
    fieldLookup k (setKey fs key v) = fieldLookup k fs := by
  induction fs with
  | nil => simp [setKey, Ne.symm h]
  | cons p t ih =>
    obtain ⟨a, b⟩ := p
    by_cases ha : a = key
    · subst ha
      simp [setKey, Ne.symm h]
    · by_cases hk : a = k <;> simp [setKey, ha, hk, h, ih]

/-- `assignFields` leaves every key the source does not carry
untouched. -/
lemma fieldLookup_assignFields_absent (src : List (String × JsVal)) (base : List (String × JsVal))
    (k : String) (h : k ∉ src.map Prod.fst) :
    fieldLookup k (assignFields base src) = fieldLookup k base := by
  induction src generalizing base with
  | nil => rfl
  | cons p t ih =>
    have hp : k ≠ p.1 := by
      intro hk
      exact h (by simp [hk])
    have h' : k ∉ t.map Prod.fst := fun hm => h (by simp [hm])
    calc fieldLookup k (assignFields (setKey base p.1 p.2) t)
        = fieldLookup k (setKey base p.1 p.2) := ih (setKey base p.1 p.2) h'
      _ = fieldLookup k base := fieldLookup_setKey_ne base k p.1 p.2 hp

lemma fieldLookup_assignFields_nil (src : List (String × JsVal)) (k : String)
    (h : k ∉ src.map Prod.fst) :
    fieldLookup k (assignFields [] src) = none := by
  rw [fieldLookup_assignFields_absent src [] k h]
  rfl

/-- Reading a property from `t || {}` is the same as reading it from
`t`: a falsy `t` is replaced by the empty object and both reads give
`undefined`. -/
lemma getF_jsOr_default (t : JsVal) (k : String) :
    getF (jsOr t (vObj [])) k = getF t k := by
  cases t with
  | vBool b => cases b <;> simp [jsOr, truthy, getF]
  | vNum n => by_cases hn : n = 0 <;> simp [jsOr, truthy, hn, getF]
  | vStr s => by_cases hs : s = "" <;> simp [jsOr, truthy, hs, getF]
  | _ => simp [jsOr, truthy, getF]

/-- Merging a usage source into the (possibly still-null) usage target
does not change the reading of any key the source does not carry; this is
the "a chunk lacking a field never clears a previously captured value"
direction of `Object.assign`. -/
lemma getF_objAssign_absent (t src : JsVal) (k : String) (h : hasKey src k = false) :
    getF (objAssign (jsOr t (vObj [])) src) k = getF t k := by
  cases src with
  | vObj ss =>
    have hs : k ∉ ss.map Prod.fst := by simpa [hasKey] using h
    cases t with
    | vObj bs =>
      simp [jsOr, truthy, objAssign, getF, fieldLookup_assignFields_absent ss bs k hs]
    | vUndef => simp [jsOr, truthy, objAssign, getF, fieldLookup_assignFields_nil ss k hs]
    | vNull => simp [jsOr, truthy, objAssign, getF, fieldLookup_assignFields_nil ss k hs]
    | vNaN => simp [jsOr, truthy, objAssign, getF, fieldLookup_assignFields_nil ss k hs]
    | vBool b =>
      cases b <;>
        simp [jsOr, truthy, objAssign, getF, fieldLookup_assignFields_nil ss k hs]
    | vNum n =>
      by_cases hn : n = 0 <;>
        simp [jsOr, truthy, hn, objAssign, getF, fieldLookup_assignFields_nil ss k hs]
    | vStr s =>
      by_cases hsn : s = "" <;>
        simp [jsOr, truthy, hsn, objAssign, getF, fieldLookup_assignFields_nil ss k hs]
    | vErr m => simp [jsOr, truthy, objAssign, getF]
    | vArr l => simp [jsOr, truthy, objAssign, getF]
    | vStream cs e te => simp [jsOr, truthy, objAssign, getF]
  | vUndef =>
    have e : objAssign (jsOr t (vObj [])) vUndef = jsOr t (vObj []) := by
      cases jsOr t (vObj []) <;> rfl
    rw [e, getF_jsOr_default]
  | vNull =>
    have e : objAssign (jsOr t (vObj [])) vNull = jsOr t (vObj []) := by
      cases jsOr t (vObj []) <;> rfl
    rw [e, getF_jsOr_default]
  | vNaN =>
    have e : objAssign (jsOr t (vObj [])) vNaN = jsOr t (vObj []) := by
      cases jsOr t (vObj []) <;> rfl
    rw [e, getF_jsOr_default]
  | vBool b =>
    have e : objAssign (jsOr t (vObj [])) (vBool b) = jsOr t (vObj []) := by
      cases jsOr t (vObj []) <;> rfl
    rw [e, getF_jsOr_default]
  | vNum n =>
    have e : objAssign (jsOr t (vObj [])) (vNum n) = jsOr t (vObj []) := by
      cases jsOr t (vObj []) <;> rfl
    rw [e, getF_jsOr_default]
  | vStr s =>
    have e : objAssign (jsOr t (vObj [])) (vStr s) = jsOr t (vObj []) := by
      cases jsOr t (vObj []) <;> rfl
    rw [e, getF_jsOr_default]
  | vErr m =>
    have e : objAssign (jsOr t (vObj [])) (vErr m) = jsOr t (vObj []) := by
      cases jsOr t (vObj []) <;> rfl
    rw [e, getF_jsOr_default]
  | vArr l =>
    have e : objAssign (jsOr t (vObj [])) (vArr l) = jsOr t (vObj []) := by
      cases jsOr t (vObj []) <;> rfl
    rw [e, getF_jsOr_default]
  | vStream cs er te =>
    have e : objAssign (jsOr t (vObj [])) (vStream cs er te) = jsOr t (vObj []) := by
      cases jsOr t (vObj []) <;> rfl
    rw [e, getF_jsOr_default]

/-- The number of records a mapped `filterMap` run produces equals the
number of started runs. -/
lemma length_filterMap_map {α β : Type} (f : α → β) (runs : List (Option α)) :
    (runs.filterMap (Option.map f)).length = (runs.filterMap id).length := by
  induction runs with
  | nil => rfl
  | cons h t ih => cases h <;> simp [ih]

/-! ## Concrete fixtures for the closed theorems -/

/-- A sample call environment. -/
def envX : Env := ⟨"id0", "ts0", 0, 5⟩

/-- A second sample call environment for the outer layer of a double
wrap. -/
def envY : Env := ⟨"id1", "ts1", 0, 7⟩

/-- An empty chunk `{}`. -/
def emptyChunk : JsVal := vObj []

/-- OpenAI-shaped chunk carrying only prompt-token usage. -/
def inChunkO : JsVal := vObj [("usage", vObj [("prompt_tokens", vNum 10)])]

/-- OpenAI-shaped chunk carrying only completion-token usage. -/
def outChunkO : JsVal := vObj [("usage", vObj [("completion_tokens", vNum 5)])]

/-- Anthropic-shaped chunk carrying only `input_tokens` usage. -/
def inChunkA : JsVal := vObj [("usage", vObj [("input_tokens", vNum 10)])]

/-- Anthropic-shaped chunk carrying only `output_tokens` usage. -/
def outChunkA : JsVal := vObj [("usage", vObj [("output_tokens", vNum 5)])]

/-- OpenAI-shaped chunk carrying the finish reason `s`. -/
def finChunkO (s : String) : JsVal :=
  vObj [("choices", vArr [vObj [("finish_reason", vStr s)]])]

/-- Gemini-shaped chunk carrying the finish reason `s`. -/
def finChunkG (s : String) : JsVal :=
  vObj [("candidates", vArr [vObj [("finishReason", vStr s)]])]

/-- Gemini-shaped chunk whose `usageMetadata` carries only the prompt
token count. -/
def inChunkG : JsVal := vObj [("usageMetadata", vObj [("promptTokenCount", vNum 10)])]

/-- Gemini-shaped chunk whose `usageMetadata` carries only the
candidates token count. -/
def outChunkG : JsVal := vObj [("usageMetadata", vObj [("candidatesTokenCount", vNum 5)])]

/-- Anthropic `message_start` event carrying `input_tokens = n`. -/
def msgStartChunk (n : Int) : JsVal :=
  vObj [("type", vStr "message_start"),
        ("message", vObj [("usage", vObj [("input_tokens", vNum n)])])]

/-- Anthropic `message_delta` event carrying `output_tokens = n`. -/
def msgDeltaChunk (n : Int) : JsVal :=
  vObj [("type", vStr "message_delta"), ("usage", vObj [("output_tokens", vNum n)])]

/-- OpenAI content-delta chunk carrying the text `hi`. -/
def hiChunk : JsVal :=
  vObj [("choices", vArr [vObj [("delta", vObj [("content", vStr "hi")])]])]

/-! ## Claim theorems -/

/-- C1.  For every observed method call whose result is not a stream (a
synchronous return, a promise resolving to a non-stream value, a
synchronous throw, or a rejecting promise), the wrapped client yields to
the caller exactly the outcome of the original method — the identical
value, or the original error re-raised — and wrapping only adds one
side-effect record emission. -/
theorem c1_nonstream_transparent (provider : LLMProvider) (env : Env) (args : List JsVal)
    (meta : List (String × JsVal)) :
    (∀ v, (wrapMethodCall provider env args meta (.syncVal v)).caller = .retVal v
       ∧ (wrapMethodCall provider env args meta (.syncVal v)).emitted.length = 1)
  ∧ (∀ e, (wrapMethodCall provider env args meta (.syncThrow e)).caller = .thrown e
       ∧ (wrapMethodCall provider env args meta (.syncThrow e)).emitted.length = 1)
  ∧ (∀ e, (wrapMethodCall provider env args meta (.asyncThrow e)).caller = .rejected e
       ∧ (wrapMethodCall provider env args meta (.asyncThrow e)).emitted.length = 1)
  ∧ (∀ v, isAsyncIterable v = false → hasTeeMethod v = false →
       (wrapMethodCall provider env args meta (.asyncVal v)).caller = .resolved v
       ∧ (wrapMethodCall provider env args meta (.asyncVal v)).emitted.length = 1) := by
  refine ⟨fun v => ⟨rfl, rfl⟩, fun e => ⟨rfl, rfl⟩, fun e => ⟨rfl, rfl⟩, ?_⟩
  intro v h1 h2
  cases v
  case vStream cs er te => simp [isAsyncIterable] at h1
  all_goals
    exact ⟨by simp only [wrapMethodCall]; split <;> rfl,
           by simp only [wrapMethodCall]; split <;> rfl⟩

/-- C1 witness: a promise resolving to the plain string value `ok` is
passed to the caller identically, with exactly one record emitted. -/
theorem c1_nonstream_transparent_witness :
    (wrapMethodCall .openai envX [] [] (.asyncVal (vStr "ok"))).caller = .resolved (vStr "ok")
    ∧ (wrapMethodCall .openai envX [] [] (.asyncVal (vStr "ok"))).emitted.length = 1 :=
  (c1_nonstream_transparent .openai envX [] []).2.2.2 (vStr "ok") rfl rfl

/-- C2 counterexample: the wrapped stream of `createStreamWrapper` emits
one record per started iteration, not one per call — a caller that never
begins iterating produces zero records, and a caller that obtains and
drains the async iterator twice produces two. -/
theorem c2_one_record_counterexample :
    (wrappedStreamEmissions .anthropic (vObj []) [] envX [emptyChunk] []).length = 0
  ∧ (wrappedStreamEmissions .anthropic (vObj []) [] envX [emptyChunk] [some 1, some 1]).length = 2
  ∧ (wrappedStreamEmissions .anthropic (vObj []) [] envX [emptyChunk] []).length ≠ 1 :=
  ⟨rfl, rfl, by decide⟩

/-- C2 amended: exactly one record is emitted per intercepted call for
synchronous returns, synchronous throws, promise rejections,
promise-resolved non-stream values, OpenAI `stream: true` calls answered
without a tee-capable stream (one basic record), and the tee'd
background streaming path (one record from the logging copy); only a
call answered through `createStreamWrapper` differs, emitting exactly
one record per started iteration of the wrapped stream (zero when the
caller never starts iterating, two when the caller obtains and
terminates the iterator twice). -/
theorem c2_one_record_amended (provider : LLMProvider) (request : JsVal)
    (meta : List (String × JsVal)) (env : Env) (chunks : List JsVal) (args : List JsVal) :
    (∀ runs, (wrappedStreamEmissions provider request meta env chunks runs).length
        = (runs.filterMap id).length)
  ∧ (∀ v, (wrapMethodCall provider env args meta (.syncVal v)).emitted.length = 1)
  ∧ (∀ e, (wrapMethodCall provider env args meta (.syncThrow e)).emitted.length = 1)
  ∧ (∀ e, (wrapMethodCall provider env args meta (.asyncThrow e)).emitted.length = 1)
  ∧ (∀ v, isAsyncIterable v = false → hasTeeMethod v = false →
        (wrapMethodCall provider env args meta (.asyncVal v)).emitted.length = 1)
  ∧ (∀ (req : JsVal) (cs : List JsVal) (err : Option JsVal),
        isTrueVal (getF (jsOr req (vObj [])) "stream") = true →
        (wrapMethodCall .openai env [req] meta
          (.asyncVal (vStream cs err true))).emitted.length = 1)
  ∧ (∀ (req v : JsVal),
        isTrueVal (getF (jsOr req (vObj [])) "stream") = true →
        hasTeeMethod v = false →
        (wrapMethodCall .openai env [req] meta (.asyncVal v)).emitted.length = 1) := by
  refine ⟨fun runs => length_filterMap_map _ runs, fun _ => rfl, fun _ => rfl, fun _ => rfl,
    ?_, ?_, ?_⟩
  · intro v h1 h2
    cases v
    case vStream cs er te => simp [isAsyncIterable] at h1
    all_goals exact (by simp only [wrapMethodCall]; split <;> rfl)
  · intro req cs err hp
    simp [wrapMethodCall, hp]
  · intro req v hp h2
    cases v
    case vStream cs er te =>
      simp only [hasTeeMethod] at h2
      subst h2
      simp [wrapMethodCall, hp]
    all_goals simp [wrapMethodCall, hp]

/-- C2 witness: a tee-capable OpenAI stream requested with
`stream: true`, a resolved plain string value, and a `stream: true` call
resolving without a tee method each emit exactly one record. -/
theorem c2_one_record_amended_witness :
    (wrapMethodCall .openai envX [vObj [("stream", vBool true)]] []
        (.asyncVal (vStream [hiChunk] none true))).emitted.length = 1
  ∧ (wrapMethodCall .openai envX [] [] (.asyncVal (vStr "ok"))).emitted.length = 1
  ∧ (wrapMethodCall .openai envX [vObj [("stream", vBool true)]] []
        (.asyncVal (vObj []))).emitted.length = 1 :=
  ⟨(c2_one_record_amended .openai (vObj []) [] envX [] []).2.2.2.2.2.1
      (vObj [("stream", vBool true)]) [hiChunk] none rfl,
   (c2_one_record_amended .openai (vObj []) [] envX [] []).2.2.2.2.1 (vStr "ok") rfl rfl,
   (c2_one_record_amended .openai (vObj []) [] envX [] []).2.2.2.2.2.2
      (vObj [("stream", vBool true)]) (vObj []) rfl rfl⟩

/-- C3.  A call that throws synchronously or rejects emits exactly one
record with status `error`, `response = null` and `errorMessage` equal to
the thrown error's message (`String(value)` for non-Error throws), and
the caller observes the original exception unchanged; in particular
`Error("boom")` yields one record with message `boom`. -/
theorem c3_error_record_and_rethrow (provider : LLMProvider) (env : Env) (args : List JsVal)
    (meta : List (String × JsVal)) :
    (∀ e, (wrapMethodCall provider env args meta (.syncThrow e)).caller = .thrown e
       ∧ (wrapMethodCall provider env args meta (.syncThrow e)).emitted.map LLMInteraction.status
           = ["error"]
       ∧ (wrapMethodCall provider env args meta (.syncThrow e)).emitted.map LLMInteraction.response
           = [vNull]
       ∧ (wrapMethodCall provider env args meta
            (.syncThrow e)).emitted.map LLMInteraction.errorMessage
           = [some (getErrorMessage e)])
  ∧ (∀ e, (wrapMethodCall provider env args meta (.asyncThrow e)).caller = .rejected e
       ∧ (wrapMethodCall provider env args meta (.asyncThrow e)).emitted.map LLMInteraction.status
           = ["error"]
       ∧ (wrapMethodCall provider env args meta (.asyncThrow e)).emitted.map LLMInteraction.response
           = [vNull]
       ∧ (wrapMethodCall provider env args meta
            (.asyncThrow e)).emitted.map LLMInteraction.errorMessage
           = [some (getErrorMessage e)])
  ∧ (∀ m, getErrorMessage (vErr m) = m)
  ∧ (wrapMethodCall provider env args meta
       (.syncThrow (vErr "boom"))).emitted.map LLMInteraction.errorMessage = [some "boom"] :=
  ⟨fun _ => ⟨rfl, rfl, rfl, rfl⟩, fun _ => ⟨rfl, rfl, rfl, rfl⟩, fun _ => rfl, rfl⟩

/-- C9 counterexample: applying the client wrapper to an already-wrapped
client is not a no-op — a synchronous call through the doubly-wrapped
client emits two records, not one. -/
theorem c9_idempotent_counterexample :
    (doubleWrapCall .openai envX envY [] [] (.syncVal (vStr "ok"))).emitted.length = 2
  ∧ (doubleWrapCall .openai envX envY [] [] (.syncVal (vStr "ok"))).emitted.length ≠ 1 :=
  ⟨rfl, by decide⟩

/-- C9 amended: patching a library module twice through `patchIfExists`
is a no-op the second time (the registry prevents a second patch
application), so patched libraries emit one record per call; but applying
the client wrapper to an already-wrapped client is not guarded and emits
two records per synchronous call. -/
theorem c9_idempotent_amended :
    (∀ (name : String) (st : PatchState),
        patchIfExists name true (patchIfExists name true st) = patchIfExists name true st)
  ∧ (∀ provider env args meta v,
        (wrapMethodCall provider env args meta (.syncVal v)).emitted.length = 1)
  ∧ (∀ provider env1 env2 args meta v,
        (doubleWrapCall provider env1 env2 args meta (.syncVal v)).emitted.length = 2) := by
  refine ⟨?_, fun _ _ _ _ _ => rfl, fun _ _ _ _ _ _ => rfl⟩
  intro name st
  by_cases h : st.patched.contains name = true
  · have e : patchIfExists name true st = st := by
      unfold patchIfExists
      rw [if_pos h]
    rw [e, e]
  · have e : patchIfExists name true st
        = ⟨name :: st.patched, st.applications + 1⟩ := by
      unfold patchIfExists
      rw [if_neg h, if_pos rfl]
    rw [e]
    have hc : (name :: st.patched).contains name = true := by simp
    unfold patchIfExists
    rw [if_pos hc]

/-- The Anthropic content-extraction step only appends to `content`; the
usage and token fields survive unchanged. -/
lemma anthropicContent_preserves (st : StreamState) (chunk : JsVal) :
    (anthropicContent st chunk).usageData = st.usageData
    ∧ (anthropicContent st chunk).inputTokensFromStart = st.inputTokensFromStart := by
  refine ⟨?_, ?_⟩ <;>
  · simp only [anthropicContent]
    split_ifs <;> rfl

/-- The Anthropic metadata step leaves every usage key the chunk's usage
objects do not carry unchanged. -/
lemma anthropicMeta_usageData_absent (st : StreamState) (chunk : JsVal) (k : String)
    (h1 : hasKey (getF chunk "usage") k = false)
    (h2 : hasKey (getF (getF chunk "message") "usage") k = false) :
    getF (anthropicMeta st chunk).usageData k = getF st.usageData k := by
  simp only [anthropicMeta]
  split_ifs <;>
    simp [getF_objAssign_absent _ _ _ h1, getF_objAssign_absent _ _ _ h2]

/-- The Anthropic metadata step does not reassign `inputTokensFromStart`
unless the chunk is a `message_start` event carrying
`message.usage.input_tokens`. -/
lemma anthropicMeta_inputTokens (st : StreamState) (chunk : JsVal)
    (h : (isStrEq (getF chunk "type") "message_start"
          && !(isUndef (getF (getF (getF chunk "message") "usage") "input_tokens"))) = false) :
    (anthropicMeta st chunk).inputTokensFromStart = st.inputTokensFromStart := by
  simp only [anthropicMeta]
  rw [h]
  simp only [Bool.false_eq_true, if_false]
  split_ifs <;> rfl

/-- C4 counterexample: in the OpenAI family, usage is not merged — a
chunk carrying prompt tokens 10, an empty chunk, and a chunk carrying
completion tokens 5 end with usage `{input: 10}` only; the later chunk's
usage is dropped because `usageData` was already set, so the final
tokens are not `{10, 5, 15}`. -/
theorem c4_merge_semantics_counterexample :
    extractTokensStream .openai (processChunks .openai [inChunkO, emptyChunk, outChunkO])
      = ⟨vNum 10, vUndef, vUndef⟩
  ∧ extractTokensStream .openai (processChunks .openai [inChunkO, emptyChunk, outChunkO])
      ≠ ⟨vNum 10, vNum 5, vNum 15⟩ :=
  ⟨rfl, fun hcon => JsVal.noConfusion (congrArg Tokens.output hcon : vUndef = vNum 5)⟩

/-- C4 amended: the merge-not-replace, never-clear semantics holds for
the Anthropic family (a chunk whose usage objects lack a key never
clears that key, and the `[{input:10}, {}, {output:5}]` example yields
`{10, 5, 15}`); finish reasons are last-writer-wins for OpenAI and
Gemini; but OpenAI keeps the first captured usage object (a later usage
chunk without an empty `choices` array is ignored) and Gemini replaces
`usageData` wholesale with each chunk's `usageMetadata`. -/
theorem c4_merge_semantics_amended :
    (∀ (st : StreamState) (chunk : JsVal) (k : String),
        hasKey (getF chunk "usage") k = false →
        hasKey (getF (getF chunk "message") "usage") k = false →
        getF (processChunk .anthropic st chunk).usageData k = getF st.usageData k)
  ∧ extractTokensStream .anthropic (processChunks .anthropic [inChunkA, emptyChunk, outChunkA])
      = ⟨vNum 10, vNum 5, vNum 15⟩
  ∧ (processChunks .openai [finChunkO "x", finChunkO "y"]).finishReason = vStr "y"
  ∧ (processChunks .gemini [finChunkG "x", finChunkG "y"]).finishReason = vStr "y"
  ∧ extractTokensStream .openai (processChunks .openai [inChunkO, emptyChunk, outChunkO])
      = ⟨vNum 10, vUndef, vUndef⟩
  ∧ extractTokensStream .gemini (processChunks .gemini [inChunkG, emptyChunk, outChunkG])
      = ⟨vUndef, vNum 5, vUndef⟩ := by
  refine ⟨?_, rfl, rfl, rfl, rfl, rfl⟩
  intro st chunk k h1 h2
  show getF (anthropicMeta (anthropicContent st chunk) chunk).usageData k = _
  rw [anthropicMeta_usageData_absent _ _ _ h1 h2, (anthropicContent_preserves st chunk).1]

/-- C4 witness: feeding an Anthropic usage chunk that lacks
`input_tokens` leaves the previously captured `input_tokens` value
untouched. -/
theorem c4_merge_semantics_amended_witness :
    hasKey (getF outChunkA "usage") "input_tokens" = false
  ∧ getF (processChunk .anthropic (processChunks .anthropic [inChunkA]) outChunkA).usageData
        "input_tokens"
      = getF (processChunks .anthropic [inChunkA]).usageData "input_tokens" :=
  ⟨rfl, c4_merge_semantics_amended.1 (processChunks .anthropic [inChunkA]) outChunkA
      "input_tokens" rfl rfl⟩

/-- C5.  Evaluating the three token extractors at the failing input: for
an Anthropic response whose usage carries only `input_tokens = 3`, the
extractor in patching.ts computes `total = 3 + undefined = NaN` — a
fabricated non-numeric value — while the guarded extractors in the
decorator module and the stream handler leave `total` (and the missing
`output`) undefined as the specification describes. -/
theorem c5_token_extraction_code_evaluation :
    extractTokensPatching (vObj [("usage", vObj [("input_tokens", vNum 3)])]) .anthropic
      = ⟨vNum 3, vUndef, vNaN⟩
  ∧ extractTokensDecorator .anthropic (vObj [("usage", vObj [("input_tokens", vNum 3)])])
      = ⟨vNum 3, vUndef, vUndef⟩
  ∧ extractTokensStream .anthropic (processChunks .anthropic [inChunkA])
      = ⟨vNum 10, vUndef, vUndef⟩ :=
  ⟨rfl, rfl, rfl⟩

/-- C10 counterexample: a second `message_start` event overwrites the
previously captured `inputTokensFromStart` — processing a subsequent
`message_start` does not leave it unchanged. -/
theorem c10_input_tokens_counterexample :
    (processChunks .anthropic [msgStartChunk 10, msgStartChunk 7]).inputTokensFromStart = vNum 7
  ∧ (processChunks .anthropic [msgStartChunk 10]).inputTokensFromStart = vNum 10
  ∧ (processChunks .anthropic [msgStartChunk 10, msgStartChunk 7]).inputTokensFromStart
      ≠ (processChunks .anthropic [msgStartChunk 10]).inputTokensFromStart :=
  ⟨rfl, rfl, fun hcon =>
    absurd (JsVal.vNum.inj (hcon : vNum 7 = vNum 10)) (by decide)⟩

/-- C10 amended: `inputTokensFromStart` is unchanged by every subsequent
chunk that is not itself a `message_start` carrying
`message.usage.input_tokens` (a later such `message_start` overwrites
it); the final output/total answer may come from the last chunk that
carries usage, as in the `message_delta` example. -/
theorem c10_input_tokens_amended :
    (∀ (st : StreamState) (chunk : JsVal),
        (isStrEq (getF chunk "type") "message_start"
          && !(isUndef (getF (getF (getF chunk "message") "usage") "input_tokens"))) = false →
        (processChunk .anthropic st chunk).inputTokensFromStart = st.inputTokensFromStart)
  ∧ extractTokensStream .anthropic
      (processChunks .anthropic [msgStartChunk 10, msgDeltaChunk 3, msgDeltaChunk 5])
      = ⟨vNum 10, vNum 5, vNum 15⟩ := by
  refine ⟨?_, rfl⟩
  intro st chunk h
  show (anthropicMeta (anthropicContent st chunk) chunk).inputTokensFromStart = _
  rw [anthropicMeta_inputTokens _ _ h, (anthropicContent_preserves st chunk).2]

/-- C10 witness: a `message_delta` chunk leaves the captured
`inputTokensFromStart` value unchanged. -/
theorem c10_input_tokens_amended_witness :
    (isStrEq (getF (msgDeltaChunk 5) "type") "message_start"
      && !(isUndef (getF (getF (getF (msgDeltaChunk 5) "message") "usage") "input_tokens")))
      = false
  ∧ (processChunk .anthropic (processChunks .anthropic [msgStartChunk 10])
        (msgDeltaChunk 5)).inputTokensFromStart
      = (processChunks .anthropic [msgStartChunk 10]).inputTokensFromStart :=
  ⟨rfl, c10_input_tokens_amended.1 (processChunks .anthropic [msgStartChunk 10])
      (msgDeltaChunk 5) rfl⟩

@[simp] lemma assignFields_nil (base : List (String × JsVal)) :
    assignFields base [] = base := rfl

@[simp] lemma assignFields_cons (base : List (String × JsVal)) (p : String × JsVal)
    (t : List (String × JsVal)) :
    assignFields base (p :: t) = assignFields (setKey base p.1 p.2) t := rfl

/-- C6 counterexample: when the stream raises on the background (tee'd)
path, the emitted record is independent of the partial content captured
before the error — the record for a stream that delivered a content
chunk and then errored equals the record for a stream that errored
immediately, carries no tokens, and the interposed-iteration record for
an erroring stream is tagged `streamFullyProcessed`, not as incomplete
processing. -/
theorem c6_partial_record_counterexample :
    processStreamInBackground .openai (vObj []) [] envX [hiChunk] (some (vErr "X"))
      = processStreamInBackground .openai (vObj []) [] envX [] (some (vErr "X"))
  ∧ (processStreamInBackground .openai (vObj []) [] envX [hiChunk] (some (vErr "X"))).tokens
      = none
  ∧ fieldLookup "streamFullyProcessed"
      (runWrappedIteration .openai (vObj []) [] envX [hiChunk] 5).metadata
      = some (vBool true) :=
  ⟨rfl, rfl, rfl⟩

/-- C6 amended: a stream that raises still produces exactly one record
on either path, but the two paths degrade differently: the background
path emits a minimal record tagged `streamProcessingError` carrying the
error message inside the synthetic response while discarding all partial
content and usage (its record does not depend on the chunks seen before
the error); the interposed-iteration path's `finally` block emits the
record built from the partial accumulation, tagged `streamFullyProcessed`
with no incomplete-processing marker added. -/
theorem c6_partial_record_amended (provider : LLMProvider) (request : JsVal)
    (meta : List (String × JsVal)) (env : Env) :
    (∀ (chunks : List JsVal) (e : JsVal),
        processStreamInBackground provider request meta env chunks (some e)
          = processStreamInBackground provider request meta env [] (some e))
  ∧ (∀ e : JsVal,
        fieldLookup "streamProcessingError"
          (processStreamInBackground provider request meta env [] (some e)).metadata
          = some (vBool true)
      ∧ getF (processStreamInBackground provider request meta env [] (some e)).response
          "processingError" = vStr (getErrorMessage e)
      ∧ (processStreamInBackground provider request meta env [] (some e)).tokens = none)
  ∧ (∀ chunks : List JsVal,
        (runWrappedIteration provider request meta env chunks chunks.length).response
          = createFinalResponse provider request env.nowMs (processChunks provider chunks)
      ∧ (runWrappedIteration provider request meta env chunks chunks.length).tokens
          = some (extractTokensStream provider (processChunks provider chunks))
      ∧ fieldLookup "streamFullyProcessed"
          (runWrappedIteration provider request meta env chunks chunks.length).metadata
          = some (vBool true)
      ∧ fieldLookup "streamProcessingError"
          (runWrappedIteration provider request meta env chunks chunks.length).metadata
          = fieldLookup "streamProcessingError" meta) := by
  refine ⟨fun chunks e => rfl, ?_, ?_⟩
  · intro e
    refine ⟨?_, rfl, rfl⟩
    show fieldLookup "streamProcessingError"
      (setKey (setKey meta "streamingRequest" (vBool true)) "streamProcessingError" (vBool true))
      = some (vBool true)
    exact fieldLookup_setKey_self _ _ _
  · intro chunks
    have ht : chunks.take chunks.length = chunks := List.take_length chunks
    refine ⟨?_, ?_, ?_, ?_⟩
    · simp [runWrappedIteration, createInteractionLog, processChunks, ht]
    · simp [runWrappedIteration, createInteractionLog, processChunks, ht]
    · show fieldLookup "streamFullyProcessed" (assignFields meta _) = some (vBool true)
      simp only [assignFields_cons, assignFields_nil]
      rw [fieldLookup_setKey_ne _ _ _ _ (by decide),
          fieldLookup_setKey_ne _ _ _ _ (by decide),
          fieldLookup_setKey_self]
    · show fieldLookup "streamProcessingError" (assignFields meta _)
        = fieldLookup "streamProcessingError" meta
      simp only [assignFields_cons, assignFields_nil]
      rw [fieldLookup_setKey_ne _ _ _ _ (by decide),
          fieldLookup_setKey_ne _ _ _ _ (by decide),
          fieldLookup_setKey_ne _ _ _ _ (by decide),
          fieldLookup_setKey_ne _ _ _ _ (by decide)]

/-- Fixture: an accumulator state with a captured finish reason. -/
def stWithFinish : StreamState := ⟨"hi", vNull, vStr "end_turn", vUndef⟩

/-- Fixture: the same accumulator state without a finish reason. -/
def stNoFinish : StreamState := ⟨"hi", vNull, vNull, vUndef⟩

/-- C7 counterexample: the synthesized Anthropic response contains no
finish-reason field at all — two accumulator states that differ only in
the captured finish reason produce identical Anthropic responses, so the
response is not populated with the captured finish reason. -/
theorem c7_response_shape_counterexample :
    createFinalResponse .anthropic (vObj []) 0 stWithFinish
      = createFinalResponse .anthropic (vObj []) 0 stNoFinish
  ∧ stWithFinish.finishReason ≠ stNoFinish.finishReason :=
  ⟨rfl, fun hcon => JsVal.noConfusion (hcon : vStr "end_turn" = vNull)⟩

/-- C7 amended: the fully drained stream's final response is synthesized
in the provider's non-streaming shape, populated with the accumulated
content and the captured usage: for OpenAI a choices/message shape also
carrying the finish reason (defaulted to `stop`), for Anthropic a
content-blocks message shape carrying usage but no finish-reason field,
and for the `GEMINI` tag a candidates/usageMetadata shape carrying the
finish reason. -/
theorem c7_response_shape_amended (st : StreamState) (request : JsVal) (now : Int) :
    (getF (getF (getIdx (getF (createFinalResponse .openai request now st) "choices") 0)
        "message") "content" = vStr st.content
      ∧ getF (getIdx (getF (createFinalResponse .openai request now st) "choices") 0)
          "finish_reason" = jsOr st.finishReason (vStr "stop")
      ∧ getF (createFinalResponse .openai request now st) "usage" = st.usageData
      ∧ getF (createFinalResponse .openai request now st) "object"
          = vStr "chat.completion.stream")
  ∧ (getF (createFinalResponse .anthropic request now st) "type" = vStr "message"
      ∧ getF (getIdx (getF (createFinalResponse .anthropic request now st) "content") 0) "text"
          = vStr st.content
      ∧ getF (createFinalResponse .anthropic request now st) "usage" = st.usageData)
  ∧ (getF (getIdx (getF (getF (getIdx
        (getF (createFinalResponse .gemini request now st) "candidates") 0) "content") "parts") 0)
        "text" = vStr st.content
      ∧ getF (getIdx (getF (createFinalResponse .gemini request now st) "candidates") 0)
          "finishReason" = st.finishReason
      ∧ getF (createFinalResponse .gemini request now st) "usageMetadata" = st.usageData) :=
  ⟨⟨rfl, rfl, rfl, rfl⟩, ⟨rfl, rfl, rfl⟩, ⟨rfl, rfl, rfl⟩⟩

/-- Property values on which the `x?.toLowerCase() || ''` idiom cannot
raise: absent, `null`, or a string. -/
def strOrNullish (v : JsVal) : Prop := v = vUndef ∨ v = vNull ∨ ∃ s, v = vStr s

lemma optChainToLower_ok (v : JsVal) (h : strOrNullish v) :
    ∃ s, optChainToLower v = .ok s := by
  rcases h with h | h | ⟨s, h⟩ <;> subst h <;> exact ⟨_, rfl⟩

lemma modelNameTag_cases (m : String) :
    modelNameTag m = none ∨ modelNameTag m = some "openai"
    ∨ modelNameTag m = some "anthropic" ∨ modelNameTag m = some "gemini" := by
  unfold modelNameTag
  split_ifs <;> simp

lemma ctorNameTagD_cases (n : String) :
    ctorNameTagD n = none ∨ ctorNameTagD n = some "openai"
    ∨ ctorNameTagD n = some "anthropic" ∨ ctorNameTagD n = some "gemini" := by
  unfold ctorNameTagD
  split_ifs <;> simp

/-- The provider tag strings the decorator classifier can produce on its
own (the explicit override is returned verbatim instead). -/
def okTag (r : JsVal) : Prop :=
  r = vStr "openai" ∨ r = vStr "anthropic" ∨ r = vStr "gemini" ∨ r = vStr "custom"

/-- C8 counterexample: provider classification is not total — a request
payload whose `model` field is the number `42` makes
`params.model?.toLowerCase()` raise a TypeError (the optional chain only
guards nullish values), so the classifier fails instead of returning a
provider tag. -/
theorem c8_classifier_total_counterexample :
    detectProviderDecorator (vObj [("model", vNum 42)]) vNull = .error ()
  ∧ ∀ r, detectProviderDecorator (vObj [("model", vNum 42)]) vNull ≠ .ok r :=
  ⟨rfl, fun _ hcon =>
    Except.noConfusion
      ((rfl :
        detectProviderDecorator (vObj [("model", vNum 42)]) vNull
          = Except.error ()).symm.trans hcon)⟩

/-- C8 amended: classification never fails and defaults to `CUSTOM`
provided the payload's `model` field and the context's constructor name
are absent, `null`, or strings (a truthy non-string value raises a
TypeError) and no explicit override is set (an override is returned
verbatim); model names containing `gemini` classify as the `gemini`
tag, and the client-based classifier in patching.ts likewise returns a
tag for every client under the same constructor-name proviso, with
`CUSTOM` for an unrecognized client. -/
theorem c8_classifier_total_amended :
    (∀ params context,
        strOrNullish (getF params "model") →
        strOrNullish (getF (getF context "constructor") "name") →
        truthy (getF (getF context "metadata") "provider") = false →
        ∃ r, detectProviderDecorator params context = .ok r ∧ okTag r)
  ∧ detectProviderDecorator (vObj [("model", vStr "gemini-1.5-pro")]) vNull
      = .ok (vStr "gemini")
  ∧ (∀ client, strOrNullish (getF (getF client "constructor") "name") →
        ∃ p, detectProviderClient client = .ok p)
  ∧ detectProviderClient (vObj []) = .ok .custom := by
  refine ⟨?_, rfl, ?_, rfl⟩
  · intro params context hm hc hov
    obtain ⟨m, hm'⟩ := optChainToLower_ok _ hm
    obtain ⟨c, hc'⟩ := optChainToLower_ok _ hc
    unfold detectProviderDecorator
    simp only [hov, Bool.false_eq_true, if_false]
    by_cases hp : (truthy params && isObjLike params) = true
    · simp only [hp, if_true, hm', Except.bind, bind, pure, Except.pure]
      rcases modelNameTag_cases m with h | h | h | h <;> simp only [h]
      · by_cases hq : (truthy context && isObjLike context) = true
        · simp only [hq, if_true, hc']
          rcases ctorNameTagD_cases c with h2 | h2 | h2 | h2 <;> simp only [h2] <;>
            exact ⟨_, rfl, by simp [okTag]⟩
        · simp only [Bool.not_eq_true] at hq
          simp only [hq, Bool.false_eq_true, if_false]
          exact ⟨_, rfl, by simp [okTag]⟩
      · exact ⟨_, rfl, by simp [okTag]⟩
      · exact ⟨_, rfl, by simp [okTag]⟩
      · exact ⟨_, rfl, by simp [okTag]⟩
    · simp only [Bool.not_eq_true] at hp
      simp only [hp, Bool.false_eq_true, if_false, Except.bind, bind, pure, Except.pure]
      by_cases hq : (truthy context && isObjLike context) = true
      · simp only [hq, if_true, hc']
        rcases ctorNameTagD_cases c with h2 | h2 | h2 | h2 <;> simp only [h2] <;>
          exact ⟨_, rfl, by simp [okTag]⟩
      · simp only [Bool.not_eq_true] at hq
        simp only [hq, Bool.false_eq_true, if_false]
        exact ⟨_, rfl, by simp [okTag]⟩
  · intro client hc
    obtain ⟨c, hc'⟩ := optChainToLower_ok _ hc
    unfold detectProviderClient
    by_cases h0 : truthy client = true
    · simp only [h0, Bool.not_true, Bool.false_eq_true, if_false, hc',
        Except.bind, bind, pure, Except.pure]
      split_ifs <;> exact ⟨_, rfl⟩
    · simp only [Bool.not_eq_true] at h0
      simp only [h0, Bool.not_false, if_true]
      exact ⟨_, rfl⟩

/-- C8 witness: a payload with the string model `claude-3` and a null
context satisfies the safety provisos, and classification succeeds with
a defined tag. -/
theorem c8_classifier_total_amended_witness :
    ∃ r, detectProviderDecorator (vObj [("model", vStr "claude-3")]) vNull = .ok r ∧ okTag r :=
  c8_classifier_total_amended.1 (vObj [("model", vStr "claude-3")]) vNull
    (Or.inr (Or.inr ⟨"claude-3", rfl⟩)) (Or.inl rfl) rfl

end Dirigible
